import Mathlib

/-!
Shallow embedding of the organization-membership subsystem of
`fullstack-saas-dashboard` (backend/app/routers/organization.py,
backend/app/deps/rbac.py, backend/app/models/organization.py,
backend/app/utils/activity.py).

Rows of the relational store are Lean structures; the store itself is a
`DB` structure of lists (the list order models insertion order, which is
what SQLAlchemy `.first()` sees).  Each HTTP handler becomes a function
`DB → DB × Except HTTPError α`: the returned `DB` is the committed state
after the call (some failing branches of the source commit a status
change before raising, so errors may change the state).  Nondeterministic
inputs of the source (`datetime.now(timezone.utc)`, `uuid.uuid4()`) are
explicit parameters (`now : Int`, `token : String`).  Side-effect
dispatch (activity logging, e-mail) is modelled with explicit failure
oracles (`logFails`, `emailFails : Bool`), since the claims speak about
whether such failures propagate.
-/

namespace SaaS

/-- A row of the `users` table (backend/app/models/user.py), restricted to
the fields the organization subsystem reads. -/
structure User where
  id : Nat
  email : String
  name : String
deriving DecidableEq, Repr

/-- A row of the `organizations` table (models/organization.py). -/
structure Organization where
  id : Nat
  name : String
deriving DecidableEq, Repr

/-- A row of the `memberships` table (models/organization.py): links one
user to one organization with a role string in {owner, admin, member}. -/
structure Membership where
  id : Nat
  org_id : Nat
  user_id : Nat
  role : String
deriving DecidableEq, Repr

/-- A row of the `invitations` table (models/organization.py).  `status`
ranges over {pending, accepted, expired}; `expires_at` is nullable. -/
structure Invitation where
  id : Nat
  org_id : Nat
  email : String
  role : String
  token : String
  status : String
  expires_at : Option Int
deriving DecidableEq, Repr

/-- A row of the `activity_logs` table as written by
`log_activity` (utils/activity.py), restricted to the fields the
organization endpoints pass. -/
structure ActivityLog where
  action : String
  user_id : Nat
  resource_type : String
  resource_id : Nat
  organization_id : Nat
deriving DecidableEq, Repr

/-- `fastapi.HTTPException`: a status code plus a detail string. -/
structure HTTPError where
  status_code : Nat
  detail : String
deriving DecidableEq, Repr

/-- The persistent store.  `next_org_id`, `next_membership_id` and
`next_invitation_id` model the autoincrement primary-key counters.
`sent_emails` records the e-mails actually handed to the delivery
backend. -/
structure DB where
  users : List User
  orgs : List Organization
  memberships : List Membership
  invitations : List Invitation
  activity_logs : List ActivityLog
  sent_emails : List String
  next_org_id : Nat
  next_membership_id : Nat
  next_invitation_id : Nat
deriving DecidableEq, Repr

/-! ## Authorization Guard (deps/rbac.py, `require_role`) -/

/-- `require_role(allowed_roles)` dependency body (rbac.py lines 18-43):
look up the membership of `(org_id, current_user)`; 403 if absent, 403 if
its role is not allowed, else return `(current_user, membership)`.  The
source's `allowed_roles` set is modelled as a list (Python set iteration
order is immaterial to the claims).  The function reads the store and
returns no new store: it performs no mutation. -/
def require_role (allowed_roles : List String) (org_id : Nat)
    (current_user : User) (db : DB) : Except HTTPError (User × Membership) :=
  match db.memberships.find? (fun m => m.org_id == org_id && m.user_id == current_user.id) with
  | none => .error ⟨403, "You are not a member of this organization"⟩
  | some membership =>
    if allowed_roles.contains membership.role then
      .ok (current_user, membership)
    else
      .error ⟨403, "Required role: " ++ String.intercalate ", " allowed_roles
        ++ ". Your role: " ++ membership.role⟩

/-! ## Row-update helpers (SQLAlchemy attribute assignment + commit) -/

/-- Assigning `invitation.status = st` and committing: the row with the
invitation's primary key is updated in place. -/
def set_inv_status (invs : List Invitation) (inv_id : Nat) (st : String) :
    List Invitation :=
  invs.map (fun i => if i.id == inv_id then { i with status := st } else i)

/-- Assigning `target_membership.role = r` and committing. -/
def set_mem_role (mems : List Membership) (mem_id : Nat) (r : String) :
    List Membership :=
  mems.map (fun m => if m.id == mem_id then { m with role := r } else m)

/-! ## utils/activity.py -/

/-- `log_activity` (utils/activity.py lines 10-53): inserts an
activity-log row and commits.  The source has NO exception handling: a
failure of this insert propagates to the caller.  The `fails` oracle
models the logging backend raising; in that case no row is committed. -/
def log_activity (fails : Bool) (db : DB) (entry : ActivityLog) :
    DB × Except HTTPError Unit :=
  if fails then (db, .error ⟨500, "Internal Server Error"⟩)
  else ({ db with activity_logs := db.activity_logs ++ [entry] }, .ok ())

/-! ## utils/email.py -/

/-- `send_invitation_email`: hands the message to the delivery backend.
The `fails` oracle models the backend raising; the caller in
`create_invitation` wraps this call in try/except. -/
def send_invitation_email (fails : Bool) (db : DB) (email : String) :
    DB × Except HTTPError Unit :=
  if fails then (db, .error ⟨500, "Internal Server Error"⟩)
  else ({ db with sent_emails := db.sent_emails ++ [email] }, .ok ())

/-! ## routers/organization.py -/

/-- `create_organization` (organization.py lines 22-56), primary
transaction only: insert the organization, flush to obtain its id, insert
the creator's membership with role owner, commit. -/
def create_organization (payload_name : String) (current_user : User)
    (db : DB) : DB × Organization :=
  let org : Organization := { id := db.next_org_id, name := payload_name }
  let membership : Membership :=
    { id := db.next_membership_id, org_id := org.id,
      user_id := current_user.id, role := "owner" }
  ({ db with
      orgs := db.orgs ++ [org],
      memberships := db.memberships ++ [membership],
      next_org_id := db.next_org_id + 1,
      next_membership_id := db.next_membership_id + 1 }, org)

/-- The `existing_member` query of `create_invitation` (organization.py
lines 115-120): the membership in `org_id` of the user whose email is
`payload_email` (scalar subquery on the users table). -/
def member_with_email (org_id : Nat) (payload_email : String) (db : DB) :
    Option Membership :=
  match db.users.find? (fun u => u.email == payload_email) with
  | none => none
  | some u => db.memberships.find? (fun m => m.org_id == org_id && m.user_id == u.id)

/-- `create_invitation` handler body (organization.py lines 89-159),
primary transaction only, given the `(current_user, membership)` pair the
`require_role({"owner","admin"})` dependency produced.  `now` is
`datetime.now(timezone.utc)` in seconds; `token` is the `uuid.uuid4()`
draw.  Returns the committed store and either the new invitation or the
HTTP error raised. -/
def create_invitation (org_id : Nat) (payload_email payload_role : String)
    (membership : Membership) (now : Int) (token : String) (db : DB) :
    DB × Except HTTPError Invitation :=
  match db.orgs.find? (fun o => o.id == org_id) with
  | none => (db, .error ⟨404, "Organization not found"⟩)
  | some _ =>
    if !(["owner", "admin", "member"].contains payload_role) then
      (db, .error ⟨400, "Invalid role. Must be: owner, admin, or member"⟩)
    else if payload_role == "owner" && membership.role != "owner" then
      (db, .error ⟨403, "Only organization owner can invite as owner"⟩)
    else
      match member_with_email org_id payload_email db with
      | some _ => (db, .error ⟨400, "User is already a member of this organization"⟩)
      | none =>
        match db.invitations.find? (fun i =>
            i.org_id == org_id && i.email == payload_email && i.status == "pending") with
        | some _ => (db, .error ⟨400, "Invitation already sent to this email"⟩)
        | none =>
          let invitation : Invitation :=
            { id := db.next_invitation_id, org_id := org_id,
              email := payload_email, role := payload_role, token := token,
              status := "pending", expires_at := some (now + 7 * 86400) }
          ({ db with
              invitations := db.invitations ++ [invitation],
              next_invitation_id := db.next_invitation_id + 1 },
            .ok invitation)

/-- The full `POST /orgs/{org_id}/invite` request (organization.py lines
80-188): `require_role({"owner","admin"})` dependency, handler body,
then — after the commit — the activity-log insert (NOT wrapped in
try/except in the source) and the e-mail dispatch (wrapped in
try/except, failure only printed). -/
def create_invitation_request (org_id : Nat)
    (payload_email payload_role : String) (current_user : User)
    (now : Int) (token : String) (logFails emailFails : Bool) (db : DB) :
    DB × Except HTTPError Invitation :=
  match require_role ["owner", "admin"] org_id current_user db with
  | .error e => (db, .error e)
  | .ok (u, membership) =>
    match create_invitation org_id payload_email payload_role membership now token db with
    | (db1, .error e) => (db1, .error e)
    | (db1, .ok invitation) =>
      match log_activity logFails db1
          { action := "invitation.create", user_id := u.id,
            resource_type := "invitation", resource_id := invitation.id,
            organization_id := org_id } with
      | (db2, .error e) => (db2, .error e)
      | (db2, .ok ()) =>
        -- try: send_invitation_email(...) except: print warning
        match send_invitation_email emailFails db2 payload_email with
        | (db3, .error _) => (db3, .ok invitation)
        | (db3, .ok ()) => (db3, .ok invitation)

/-- `list_pending_invitations` (organization.py lines 191-211): filter
the current user's invitations to status pending and expiry null or
strictly in the future.  Read-only: no store is returned. -/
def list_pending_invitations (current_user : User) (now : Int) (db : DB) :
    List Invitation :=
  db.invitations.filter (fun i =>
    i.email == current_user.email && i.status == "pending" &&
      (match i.expires_at with
       | none => true
       | some e => decide (now < e)))

/-- `accept_invitation` handler body (organization.py lines 214-304),
primary transaction only.  Note the two failing branches that commit
before raising: the lazy-expiry branch (status := expired) and the
already-a-member branch (status := accepted). -/
def accept_invitation (payload_token : String) (current_user : User)
    (now : Int) (db : DB) : DB × Except HTTPError Membership :=
  match db.invitations.find? (fun i => i.token == payload_token) with
  | none => (db, .error ⟨404, "Invitation not found"⟩)
  | some invitation =>
    if invitation.status != "pending" then
      (db, .error ⟨400, "Invitation already " ++ invitation.status⟩)
    else if invitation.email != current_user.email then
      (db, .error ⟨403, "This invitation was sent to a different email address"⟩)
    else if (invitation.expires_at.map (fun e => decide (e < now))).getD false then
      ({ db with invitations := set_inv_status db.invitations invitation.id "expired" },
        .error ⟨400, "Invitation has expired"⟩)
    else
      match db.memberships.find? (fun m =>
          m.org_id == invitation.org_id && m.user_id == current_user.id) with
      | some _ =>
        ({ db with invitations := set_inv_status db.invitations invitation.id "accepted" },
          .error ⟨400, "You are already a member of this organization"⟩)
      | none =>
        let membership : Membership :=
          { id := db.next_membership_id, org_id := invitation.org_id,
            user_id := current_user.id, role := invitation.role }
        ({ db with
            memberships := db.memberships ++ [membership],
            invitations := set_inv_status db.invitations invitation.id "accepted",
            next_membership_id := db.next_membership_id + 1 },
          .ok membership)

/-- The full `POST /orgs/accept` request (organization.py lines 214-315):
handler body, then — after the commit — two activity-log inserts, neither
wrapped in try/except.  `logFails` models the logging backend raising (on
the first insert it reaches). -/
def accept_invitation_request (payload_token : String) (current_user : User)
    (now : Int) (logFails : Bool) (db : DB) :
    DB × Except HTTPError Membership :=
  match accept_invitation payload_token current_user now db with
  | (db1, .error e) => (db1, .error e)
  | (db1, .ok membership) =>
    match log_activity logFails db1
        { action := "invitation.accept", user_id := current_user.id,
          resource_type := "membership", resource_id := membership.id,
          organization_id := membership.org_id } with
    | (db2, .error e) => (db2, .error e)
    | (db2, .ok ()) =>
      match log_activity logFails db2
          { action := "membership.create", user_id := current_user.id,
            resource_type := "membership", resource_id := membership.id,
            organization_id := membership.org_id } with
      | (db3, .error e) => (db3, .error e)
      | (db3, .ok ()) => (db3, .ok membership)

/-- `update_member_role` handler body (organization.py lines 345-417),
given the `require_role({"owner","admin"})` result. -/
def update_member_role (org_id user_id : Nat) (payload_role : String)
    (current_user : User) (membership : Membership) (db : DB) :
    DB × Except HTTPError Membership :=
  if !(["owner", "admin", "member"].contains payload_role) then
    (db, .error ⟨400, "Invalid role. Must be: owner, admin, or member"⟩)
  else
    match db.memberships.find? (fun m => m.org_id == org_id && m.user_id == user_id) with
    | none => (db, .error ⟨404, "Member not found"⟩)
    | some target_membership =>
      if payload_role == "owner" && membership.role != "owner" then
        (db, .error ⟨403, "Only organization owner can assign owner role"⟩)
      else if target_membership.user_id == current_user.id
          && target_membership.role == "owner"
          && (db.memberships.find? (fun m =>
                m.org_id == org_id && m.role == "owner"
                  && m.user_id != current_user.id)).isNone then
        (db, .error ⟨400, "Cannot change role: you are the only owner"⟩)
      else
        ({ db with memberships := set_mem_role db.memberships target_membership.id payload_role },
          .ok { target_membership with role := payload_role })

/-- The full `PATCH /orgs/{org_id}/members/{user_id}` request:
`require_role({"owner","admin"})` then the handler body. -/
def update_member_role_request (org_id user_id : Nat)
    (payload_role : String) (current_user : User) (db : DB) :
    DB × Except HTTPError Membership :=
  match require_role ["owner", "admin"] org_id current_user db with
  | .error e => (db, .error e)
  | .ok (u, membership) => update_member_role org_id user_id payload_role u membership db

/-- `remove_member` handler body (organization.py lines 420-469), given
the `require_role({"owner","admin"})` result. -/
def remove_member (org_id user_id : Nat) (current_user : User)
    (membership : Membership) (db : DB) : DB × Except HTTPError Unit :=
  match db.memberships.find? (fun m => m.org_id == org_id && m.user_id == user_id) with
  | none => (db, .error ⟨404, "Member not found"⟩)
  | some target_membership =>
    if target_membership.role == "owner" && membership.role != "owner" then
      (db, .error ⟨403, "Only organization owner can remove owners"⟩)
    else if target_membership.user_id == current_user.id
        && target_membership.role == "owner"
        && (db.memberships.find? (fun m =>
              m.org_id == org_id && m.role == "owner"
                && m.user_id != current_user.id)).isNone then
      (db, .error ⟨400, "Cannot remove yourself: you are the only owner"⟩)
    else
      ({ db with memberships := db.memberships.filter (fun m => m.id != target_membership.id) },
        .ok ())

/-- The full `DELETE /orgs/{org_id}/members/{user_id}` request:
`require_role({"owner","admin"})` then the handler body. -/
def remove_member_request (org_id user_id : Nat) (current_user : User)
    (db : DB) : DB × Except HTTPError Unit :=
  match require_role ["owner", "admin"] org_id current_user db with
  | .error e => (db, .error e)
  | .ok (u, membership) => remove_member org_id user_id u membership db

deriving instance DecidableEq for Except

/-! ## Store invariants -/

/-- Primary-key uniqueness of membership rows. -/
def idUniqueMem (l : List Membership) : Prop :=
  ∀ m1 ∈ l, ∀ m2 ∈ l, m1.id = m2.id → m1 = m2

/-- The `uq_membership_org_user` unique constraint
(models/organization.py lines 33-35): at most one membership row per
(organization, user) pair. -/
def membPairUnique (l : List Membership) : Prop :=
  ∀ m1 ∈ l, ∀ m2 ∈ l, m1.org_id = m2.org_id → m1.user_id = m2.user_id → m1 = m2

/-- The sole-owner invariant of the spec: every organization that has a
membership has a membership with role owner. -/
def ownerInv (l : List Membership) : Prop :=
  ∀ m ∈ l, ∃ ow ∈ l, ow.org_id = m.org_id ∧ ow.role = "owner"

/-- The `memberships.org_id` foreign key (models/organization.py line
22): every membership row references an existing organization. -/
def membOrgFK (db : DB) : Prop :=
  ∀ m ∈ db.memberships, ∃ o ∈ db.orgs, o.id = m.org_id

instance (l : List Membership) : Decidable (idUniqueMem l) := by
  unfold idUniqueMem; infer_instance

instance (l : List Membership) : Decidable (membPairUnique l) := by
  unfold membPairUnique; infer_instance

instance (l : List Membership) : Decidable (ownerInv l) := by
  unfold ownerInv; infer_instance

instance (db : DB) : Decidable (membOrgFK db) := by
  unfold membOrgFK; infer_instance

/-! ## Concrete stores used by counterexamples and witnesses -/

/-- User A, the owner of the example organization. -/
def userA : User := ⟨100, "a@x.com", "A"⟩

/-- User B, an admin of the example organization. -/
def userB : User := ⟨200, "b@x.com", "B"⟩

/-- User C, an outside user with a pending invitation. -/
def userC : User := ⟨300, "c@x.com", "C"⟩

/-- Example store: one organization (id 10) with owner `userA` and admin
`userB`, no invitations. -/
def exDb : DB :=
  { users := [userA, userB, userC], orgs := [⟨10, "Acme"⟩],
    memberships := [⟨1, 10, 100, "owner"⟩, ⟨2, 10, 200, "admin"⟩],
    invitations := [], activity_logs := [], sent_emails := [],
    next_org_id := 11, next_membership_id := 3, next_invitation_id := 7 }

/-- `exDb` plus a pending invitation for `userC` that expired at time 50. -/
def exDbExpired : DB :=
  { exDb with invitations := [⟨5, 10, "c@x.com", "member", "tok1", "pending", some 50⟩] }

/-- `exDb` plus a pending invitation for `userC` valid until time 200. -/
def exDbPending : DB :=
  { exDb with invitations := [⟨6, 10, "c@x.com", "member", "tok5", "pending", some 200⟩] }

/-- Example store with two owners of organization 10. -/
def exDbTwoOwners : DB :=
  { exDb with memberships := [⟨1, 10, 100, "owner"⟩, ⟨2, 10, 200, "owner"⟩] }

/-! ## Helper lemmas -/

theorem find?_ne_none_of_exists {α} {p : α → Bool} {l : List α}
    (h : ∃ x ∈ l, p x = true) : l.find? p ≠ none := by
  intro hn
  rw [List.find?_eq_none] at hn
  obtain ⟨x, hx, hpx⟩ := h
  exact hn x hx hpx

theorem require_role_ok_facts {allowed : List String} {org_id : Nat}
    {u : User} {db : DB} {p : User × Membership}
    (h : require_role allowed org_id u db = .ok p) :
    p.1 = u ∧ p.2 ∈ db.memberships ∧ p.2.org_id = org_id ∧
      p.2.user_id = u.id ∧ allowed.contains p.2.role = true := by
  unfold require_role at h
  cases hf : db.memberships.find?
      (fun m => m.org_id == org_id && m.user_id == u.id) with
  | none => rw [hf] at h; exact absurd h (by simp)
  | some m =>
    rw [hf] at h
    simp only [] at h
    have hp := List.find?_some hf
    have hmem := List.mem_of_find?_eq_some hf
    simp only [Bool.and_eq_true, beq_iff_eq] at hp
    by_cases hc : allowed.contains m.role = true
    · rw [if_pos hc] at h
      injection h with h'
      subst h'
      exact ⟨rfl, hmem, hp.1, hp.2, hc⟩
    · rw [if_neg hc] at h
      exact absurd h (by simp)

theorem require_role_error_403 {allowed : List String} {org_id : Nat}
    {u : User} {db : DB} {e : HTTPError}
    (h : require_role allowed org_id u db = .error e) : e.status_code = 403 := by
  unfold require_role at h
  cases hf : db.memberships.find?
      (fun m => m.org_id == org_id && m.user_id == u.id) with
  | none =>
    rw [hf] at h
    simp only [] at h
    injection h with h'
    rw [← h']
  | some m =>
    rw [hf] at h
    simp only [] at h
    by_cases hc : allowed.contains m.role = true
    · rw [if_pos hc] at h; exact absurd h (by simp)
    · rw [if_neg hc] at h
      injection h with h'
      rw [← h']

/-! ## Claim theorems -/

/-- C8: requireRole fails with the NotAMember 403 error when no
membership row exists for the (user, organization) pair; with the
InsufficientRole 403 error when the pair's membership role is outside
`allowed_roles`; and otherwise returns the current user together with
that membership.  The function returns no store, so it mutates nothing
by construction. -/
theorem require_role_contract (allowed : List String) (org_id : Nat)
    (u : User) (db : DB) (huniq : membPairUnique db.memberships) :
    ((¬ ∃ m ∈ db.memberships, m.org_id = org_id ∧ m.user_id = u.id) →
       require_role allowed org_id u db =
         .error ⟨403, "You are not a member of this organization"⟩) ∧
    (∀ m ∈ db.memberships, m.org_id = org_id → m.user_id = u.id →
       (m.role ∉ allowed →
          require_role allowed org_id u db =
            .error ⟨403, "Required role: " ++ String.intercalate ", " allowed
              ++ ". Your role: " ++ m.role⟩) ∧
       (m.role ∈ allowed → require_role allowed org_id u db = .ok (u, m))) := by
  unfold require_role
  cases hf : db.memberships.find?
      (fun m => m.org_id == org_id && m.user_id == u.id) with
  | none =>
    rw [List.find?_eq_none] at hf
    refine ⟨fun _ => rfl, ?_⟩
    intro m hm h1 h2
    have := hf m hm
    simp only [Bool.and_eq_true, beq_iff_eq] at this
    exact absurd ⟨h1, h2⟩ this
  | some m0 =>
    simp only []
    have hp := List.find?_some hf
    have hmem := List.mem_of_find?_eq_some hf
    simp only [Bool.and_eq_true, beq_iff_eq] at hp
    constructor
    · intro hno
      exact absurd ⟨m0, hmem, hp.1, hp.2⟩ hno
    · intro m hm h1 h2
      have hmm0 : m = m0 := huniq m hm m0 hmem (h1.trans hp.1.symm) (h2.trans hp.2.symm)
      subst hmm0
      constructor
      · intro hnotin
        have hc : ¬ allowed.contains m.role = true :=
          fun hcon => hnotin (List.elem_iff.mp hcon)
        rw [if_neg hc]
      · intro hin
        have hc : allowed.contains m.role = true := List.elem_iff.mpr hin
        rw [if_pos hc]

/-- C9: listPendingInvitationsForEmail returns exactly the invitations
addressed to the user's email whose status is pending and whose
expires_at is null or strictly later than now.  The function reads the
store and returns only a list, so it mutates no invitation, membership
or organization state by construction. -/
theorem list_pending_invitations_spec (inv : Invitation) (u : User)
    (now : Int) (db : DB) :
    inv ∈ list_pending_invitations u now db ↔
      inv ∈ db.invitations ∧ inv.email = u.email ∧ inv.status = "pending" ∧
        (inv.expires_at = none ∨ ∃ e, inv.expires_at = some e ∧ now < e) := by
  unfold list_pending_invitations
  rw [List.mem_filter]
  cases h : inv.expires_at with
  | none => simp [h, Bool.and_eq_true, beq_iff_eq]
  | some e =>
    simp [h, Bool.and_eq_true, beq_iff_eq]
    tauto

theorem create_invitation_404_core {org_id : Nat} {email role : String}
    {membership : Membership} {now : Int} {token : String} {db : DB}
    (h : (create_invitation org_id email role membership now token db).2 =
      .error ⟨404, "Organization not found"⟩) :
    db.orgs.find? (fun o => o.id == org_id) = none := by
  unfold create_invitation at h
  cases ho : db.orgs.find? (fun o => o.id == org_id) with
  | none => rfl
  | some o =>
    rw [ho] at h
    simp only [] at h
    split at h <;> (try split at h) <;> (try split at h) <;> (try split at h) <;>
      simp_all

/-- C10: the 404 Organization-not-found branch of createInvitation is
unreachable.  Under the memberships-to-organizations foreign key
(`membOrgFK`), any request that passes the require_role({owner,admin})
dependency holds a membership row of the organization, so the
organization lookup in the handler body always succeeds and the request
never produces the 404 Organization-not-found error. -/
theorem create_invitation_org_not_found_unreachable
    (db : DB) (hfk : membOrgFK db) (org_id : Nat) (email role : String)
    (u : User) (now : Int) (token : String) (logFails emailFails : Bool) :
    (create_invitation_request org_id email role u now token logFails emailFails db).2 ≠
      .error ⟨404, "Organization not found"⟩ := by
  intro hcontra
  unfold create_invitation_request at hcontra
  cases hr : require_role ["owner", "admin"] org_id u db with
  | error e =>
    rw [hr] at hcontra
    simp only [] at hcontra
    injection hcontra with h'
    have h403 := require_role_error_403 hr
    rw [h'] at h403
    simp at h403
  | ok p =>
    obtain ⟨u', mem⟩ := p
    rw [hr] at hcontra
    simp only [] at hcontra
    obtain ⟨hu, hmem, horg, huid, hrole⟩ := require_role_ok_facts hr
    cases hc : create_invitation org_id email role mem now token db with
    | mk db1 r =>
      rw [hc] at hcontra
      cases r with
      | error e =>
        simp only [] at hcontra
        injection hcontra with h'
        subst h'
        have h404 := create_invitation_404_core (by rw [hc])
        have hex : db.orgs.find? (fun o => o.id == org_id) ≠ none := by
          apply find?_ne_none_of_exists
          obtain ⟨o, ho, hoid⟩ := hfk mem hmem
          refine ⟨o, ho, ?_⟩
          simp only [beq_iff_eq, hoid]
          exact horg
        exact hex h404
      | ok inv =>
        simp only [] at hcontra
        unfold log_activity send_invitation_email at hcontra
        cases logFails <;> cases emailFails <;> simp_all

/-- C1 counterexample: starting from a store satisfying the sole-owner
invariant (organization 10 has owner userA, id 100, and admin userB,
id 200), the admin userB successfully updates userA's role to member —
the guard in update_member_role only fires when the target is the acting
user — leaving organization 10 with memberships but zero owner-role
memberships.  This refutes the claim that no successful updateRole call
can leave an organization with memberships but no owner. -/
theorem sole_owner_invariant_cx :
    ownerInv exDb.memberships ∧
    (update_member_role_request 10 100 "member" userB exDb).2 =
      .ok ⟨1, 10, 100, "member"⟩ ∧
    ¬ ownerInv (update_member_role_request 10 100 "member" userB exDb).1.memberships := by
  decide

/-- C2 counterexample: accepting an invitation whose expires_at (50) is
before now (100) fails with the Expired error, yet the call commits a
state change — the invitation's status flips from pending to expired —
so a failing acceptInvitation call does not leave the persistent state
identical to the state before the call. -/
theorem accept_invitation_atomicity_cx :
    (accept_invitation "tok1" userC 100 exDbExpired).2 =
      .error ⟨400, "Invitation has expired"⟩ ∧
    (accept_invitation "tok1" userC 100 exDbExpired).1 ≠ exDbExpired := by
  decide

/-- C3 counterexample: the only existing invitation for (org 10,
c@x.com) is pending with expires_at 50, already in the past at now =
100, yet createInvitation is still rejected with the duplicate error —
the duplicate check in the source tests only status == pending and
ignores expires_at. -/
theorem duplicate_invitation_expired_cx :
    exDbExpired.invitations =
      [⟨5, 10, "c@x.com", "member", "tok1", "pending", some 50⟩] ∧
    (50 : Int) < 100 ∧
    (create_invitation_request 10 "c@x.com" "member" userA 100 "tok9" false false exDbExpired).2 =
      .error ⟨400, "Invitation already sent to this email"⟩ := by
  decide

/-- C5 counterexample: userB is an admin of organization 10; their
updateRole call with newRole owner on target user 999, who has no
membership, fails with the 404 Member-not-found error rather than a
403 Forbidden-equivalent error: the target lookup precedes the
role-escalation guard in update_member_role. -/
theorem role_escalation_guard_cx :
    (update_member_role_request 10 999 "owner" userB exDb).2 =
      .error ⟨404, "Member not found"⟩ ∧
    (update_member_role_request 10 999 "owner" userB exDb).2 ≠
      .error ⟨403, "Only organization owner can assign owner role"⟩ := by
  decide

theorem find?_token_set_inv_status (l : List Invitation) (t : String)
    (inv_id : Nat) (st : String) :
    (set_inv_status l inv_id st).find? (fun i => i.token == t) =
      (l.find? (fun i => i.token == t)).map
        (fun i => if i.id == inv_id then { i with status := st } else i) := by
  unfold set_inv_status
  rw [List.find?_map]
  have hpf : ((fun i : Invitation => i.token == t) ∘ fun i =>
      if i.id == inv_id then { i with status := st } else i) =
      (fun i : Invitation => i.token == t) := by
    funext i
    by_cases h : (i.id == inv_id) = true <;> simp [Function.comp, h]
  rw [hpf]

/-- C3 (amended): when the earlier checks of createInvitation pass (the
organization exists, the proposed role is valid, the inviter may grant
it, and the target email does not already belong to a member), the call
is rejected with the 400 duplicate error exactly when a PENDING
invitation for (orgId, targetEmail) exists, regardless of its
expires_at: the duplicate check in the source tests only
status == pending and ignores expiry, so a pending invitation whose
expires_at is in the past still blocks creation (see the
counterexample), contrary to the original claim. -/
theorem duplicate_invitation_check (org_id : Nat) (email role : String)
    (membership : Membership) (now : Int) (token : String) (db : DB)
    (horg : ∃ o ∈ db.orgs, o.id = org_id)
    (hrole : role ∈ ["owner", "admin", "member"])
    (hesc : role = "owner" → membership.role = "owner")
    (hmem : member_with_email org_id email db = none) :
    (create_invitation org_id email role membership now token db).2 =
        .error ⟨400, "Invitation already sent to this email"⟩ ↔
      ∃ i ∈ db.invitations, i.org_id = org_id ∧ i.email = email ∧
        i.status = "pending" := by
  obtain ⟨o, ho, hoid⟩ := horg
  cases hfo : db.orgs.find? (fun o => o.id == org_id) with
  | none =>
    rw [List.find?_eq_none] at hfo
    exact absurd (by simp [hoid] : (fun o => o.id == org_id) o = true) (hfo o ho)
  | some o' =>
    unfold create_invitation
    rw [hfo]
    simp only []
    have hc1 : (["owner", "admin", "member"].contains role) = true :=
      List.elem_iff.mpr hrole
    rw [hc1]
    rw [if_neg (by simp)]
    have hc2 : (role == "owner" && membership.role != "owner") = false := by
      by_cases hro : role = "owner"
      · simp [hro, hesc hro]
      · simp [hro]
    rw [hc2]
    rw [if_neg (by simp)]
    rw [hmem]
    simp only []
    cases hi : db.invitations.find? (fun i =>
        i.org_id == org_id && i.email == email && i.status == "pending") with
    | some i =>
      simp only []
      have hp := List.find?_some hi
      have hm := List.mem_of_find?_eq_some hi
      simp only [Bool.and_eq_true, beq_iff_eq] at hp
      constructor
      · intro _
        exact ⟨i, hm, hp.1.1, hp.1.2, hp.2⟩
      · intro _
        trivial
    | none =>
      simp only []
      rw [List.find?_eq_none] at hi
      constructor
      · intro hcontra
        exact absurd hcontra (by simp)
      · rintro ⟨i, hm, h1, h2, h3⟩
        exact absurd (by simp [h1, h2, h3] :
          (fun i => i.org_id == org_id && i.email == email && i.status == "pending") i = true)
          (hi i hm)

/-- C4: accepting a pending invitation addressed to the accepting user's
email whose expires_at is set and in the past fails with the 400
Invitation-has-expired error and persistently flips the invitation's
status to expired, creating no membership; a second accept of the same
token then fails with the 400 Invitation-already-expired error (the
InvalidState message reporting the current status), changes nothing
further, and creates no membership. -/
theorem invitation_expiry_correctness (db : DB) (u : User) (now : Int)
    (t : String) (inv : Invitation) (e : Int)
    (hfind : db.invitations.find? (fun i => i.token == t) = some inv)
    (hst : inv.status = "pending") (hem : inv.email = u.email)
    (hexp : inv.expires_at = some e) (hlt : e < now) :
    (accept_invitation t u now db).2 = .error ⟨400, "Invitation has expired"⟩ ∧
    (accept_invitation t u now db).1.memberships = db.memberships ∧
    (accept_invitation t u now db).1.invitations =
      set_inv_status db.invitations inv.id "expired" ∧
    (accept_invitation t u now (accept_invitation t u now db).1).2 =
      .error ⟨400, "Invitation already expired"⟩ ∧
    (accept_invitation t u now (accept_invitation t u now db).1).1 =
      (accept_invitation t u now db).1 := by
  have h1 : accept_invitation t u now db =
      ({ db with invitations := set_inv_status db.invitations inv.id "expired" },
        .error ⟨400, "Invitation has expired"⟩) := by
    unfold accept_invitation
    rw [hfind]
    simp [hst, hem, hexp, hlt]
  have hmap := find?_token_set_inv_status db.invitations t inv.id "expired"
  rw [hfind] at hmap
  simp only [Option.map_some', beq_self_eq_true, if_true] at hmap
  have h2 : accept_invitation t u now
      ({ db with invitations := set_inv_status db.invitations inv.id "expired" }) =
      ({ db with invitations := set_inv_status db.invitations inv.id "expired" },
        .error ⟨400, "Invitation already expired"⟩) := by
    unfold accept_invitation
    simp only []
    rw [hmap]
    simp
  rw [h1]
  simp only []
  rw [h2]
  refine ⟨?_, ?_, ?_, ?_, ?_⟩ <;> trivial

/-- C7 counterexample: when the activity-log insert fails
(logFails = true), createInvitation propagates the failure to the caller
as a 500 error (log_activity in the source has no exception handling)
even though the invitation was already committed: it is present in the
store the request returns. -/
theorem side_effect_log_failure_cx :
    (create_invitation_request 10 "z@x.com" "member" userA 100 "tok4" true false exDb).2 =
      .error ⟨500, "Internal Server Error"⟩ ∧
    (create_invitation_request 10 "z@x.com" "member" userA 100 "tok4" true false exDb).1.invitations =
      [⟨7, 10, "z@x.com", "member", "tok4", "pending", some 604900⟩] := by
  decide

theorem accept_ok_shape {t : String} {u : User} {now : Int} {db db' : DB}
    {m : Membership} (h : accept_invitation t u now db = (db', .ok m)) :
    ∃ inv ∈ db.invitations,
      inv.token = t ∧ inv.status = "pending" ∧ inv.email = u.email ∧
      db.memberships.find?
        (fun mm => mm.org_id == inv.org_id && mm.user_id == u.id) = none ∧
      m = ⟨db.next_membership_id, inv.org_id, u.id, inv.role⟩ ∧
      db' = { db with
        memberships := db.memberships ++ [m],
        invitations := set_inv_status db.invitations inv.id "accepted",
        next_membership_id := db.next_membership_id + 1 } := by
  unfold accept_invitation at h
  cases hf : db.invitations.find? (fun i => i.token == t) with
  | none => rw [hf] at h; exact absurd h (by simp)
  | some inv =>
    rw [hf] at h
    simp only [] at h
    have htok : inv.token = t := by
      have := List.find?_some hf
      simpa [beq_iff_eq] using this
    have hmem := List.mem_of_find?_eq_some hf
    by_cases hst : (inv.status != "pending") = true
    · rw [if_pos hst] at h; exact absurd h (by simp)
    · rw [if_neg hst] at h
      have hpend : inv.status = "pending" := by simpa using hst
      by_cases hem : (inv.email != u.email) = true
      · rw [if_pos hem] at h; exact absurd h (by simp)
      · rw [if_neg hem] at h
        have hemail : inv.email = u.email := by simpa using hem
        by_cases hex : (inv.expires_at.map (fun e => decide (e < now))).getD false = true
        · rw [if_pos hex] at h; exact absurd h (by simp)
        · rw [if_neg hex] at h
          cases hmm : db.memberships.find?
              (fun mm => mm.org_id == inv.org_id && mm.user_id == u.id) with
          | some ex => rw [hmm] at h; exact absurd h (by simp)
          | none =>
            rw [hmm] at h
            simp only [] at h
            injection h with h1 h2
            injection h2 with h3
            subst h3
            exact ⟨inv, hmem, htok, hpend, hemail, hmm, rfl, h1.symm⟩

theorem accept_error_shape {t : String} {u : User} {now : Int} {db db' : DB}
    {e : HTTPError} (h : accept_invitation t u now db = (db', .error e)) :
    db'.memberships = db.memberships ∧ db'.orgs = db.orgs ∧
    db'.users = db.users ∧
    (db'.invitations = db.invitations ∨
     ∃ inv ∈ db.invitations, inv.token = t ∧ inv.status = "pending" ∧
       (db'.invitations = set_inv_status db.invitations inv.id "expired" ∨
        db'.invitations = set_inv_status db.invitations inv.id "accepted")) := by
  unfold accept_invitation at h
  cases hf : db.invitations.find? (fun i => i.token == t) with
  | none =>
    rw [hf] at h
    simp only [] at h
    injection h with h1 h2
    subst h1
    exact ⟨rfl, rfl, rfl, .inl rfl⟩
  | some inv =>
    rw [hf] at h
    simp only [] at h
    have htok : inv.token = t := by
      have := List.find?_some hf
      simpa [beq_iff_eq] using this
    have hmem := List.mem_of_find?_eq_some hf
    by_cases hst : (inv.status != "pending") = true
    · rw [if_pos hst] at h
      injection h with h1 h2
      subst h1
      exact ⟨rfl, rfl, rfl, .inl rfl⟩
    · rw [if_neg hst] at h
      have hpend : inv.status = "pending" := by simpa using hst
      by_cases hem : (inv.email != u.email) = true
      · rw [if_pos hem] at h
        injection h with h1 h2
        subst h1
        exact ⟨rfl, rfl, rfl, .inl rfl⟩
      · rw [if_neg hem] at h
        by_cases hex : (inv.expires_at.map (fun e => decide (e < now))).getD false = true
        · rw [if_pos hex] at h
          injection h with h1 h2
          subst h1
          exact ⟨rfl, rfl, rfl, .inr ⟨inv, hmem, htok, hpend, .inl rfl⟩⟩
        · rw [if_neg hex] at h
          cases hmm : db.memberships.find?
              (fun mm => mm.org_id == inv.org_id && mm.user_id == u.id) with
          | some ex =>
            rw [hmm] at h
            simp only [] at h
            injection h with h1 h2
            subst h1
            exact ⟨rfl, rfl, rfl, .inr ⟨inv, hmem, htok, hpend, .inr rfl⟩⟩
          | none =>
            rw [hmm] at h
            simp only [] at h
            exact absurd h (by simp)

/-- C2 (amended): a successful acceptInvitation call commits exactly the
accepted invitation together with exactly one new membership row for
(invitation.org_id, user) with the invitation's role; a failing call
never touches memberships, organizations or users, and leaves the
invitations unchanged except that the targeted pending invitation's
status may be committed as expired (lazy-expiry branch) or accepted
(already-a-member branch) — so, contrary to the original claim, a
failing call is not always a no-op on the invitation state (see the
counterexample). -/
theorem accept_invitation_atomicity (t : String) (u : User) (now : Int)
    (db : DB) :
    (∀ db' m, accept_invitation t u now db = (db', .ok m) →
       ∃ inv ∈ db.invitations,
         inv.token = t ∧ inv.status = "pending" ∧ inv.email = u.email ∧
         m = ⟨db.next_membership_id, inv.org_id, u.id, inv.role⟩ ∧
         db'.memberships = db.memberships ++ [m] ∧
         db'.invitations = set_inv_status db.invitations inv.id "accepted" ∧
         db'.orgs = db.orgs ∧ db'.users = db.users) ∧
    (∀ db' e, accept_invitation t u now db = (db', .error e) →
       db'.memberships = db.memberships ∧ db'.orgs = db.orgs ∧
       db'.users = db.users ∧
       (db'.invitations = db.invitations ∨
        ∃ inv ∈ db.invitations, inv.token = t ∧ inv.status = "pending" ∧
          (db'.invitations = set_inv_status db.invitations inv.id "expired" ∨
           db'.invitations = set_inv_status db.invitations inv.id "accepted"))) := by
  constructor
  · intro db' m h
    obtain ⟨inv, hmem, htok, hpend, hemail, hmm, hm, hdb⟩ := accept_ok_shape h
    subst hdb
    exact ⟨inv, hmem, htok, hpend, hemail, hm, rfl, rfl, rfl, rfl⟩
  · intro db' e h
    exact accept_error_shape h

theorem membPairUnique_append {l : List Membership} {x : Membership}
    (hu : membPairUnique l)
    (hx : ∀ m ∈ l, ¬(m.org_id = x.org_id ∧ m.user_id = x.user_id)) :
    membPairUnique (l ++ [x]) := by
  intro m1 h1 m2 h2 ho hus
  rcases List.mem_append.mp h1 with h1l | h1x <;>
    rcases List.mem_append.mp h2 with h2l | h2x
  · exact hu m1 h1l m2 h2l ho hus
  · have hx2 : m2 = x := List.mem_singleton.mp h2x
    rw [hx2] at ho hus
    exact absurd ⟨ho, hus⟩ (hx m1 h1l)
  · have hx1 : m1 = x := List.mem_singleton.mp h1x
    rw [hx1] at ho hus
    exact absurd ⟨ho.symm, hus.symm⟩ (hx m2 h2l)
  · rw [List.mem_singleton.mp h1x, List.mem_singleton.mp h2x]

/-- C6: membership uniqueness.  Given the uniqueness invariant on the
current store, (a) create_organization preserves it (its fresh
organization id, taken from the autoincrement counter, is referenced by
no existing membership), (b) accept_invitation preserves it on every
path, and (c) an acceptInvitation call by a user who already holds a
membership in the target organization fails with the 400
already-a-member error and creates no membership row. -/
theorem membership_uniqueness (db : DB) (hu : membPairUnique db.memberships) :
    (∀ name u, (∀ m ∈ db.memberships, m.org_id < db.next_org_id) →
       membPairUnique (create_organization name u db).1.memberships) ∧
    (∀ t u now, membPairUnique (accept_invitation t u now db).1.memberships) ∧
    (∀ t u now inv, db.invitations.find? (fun i => i.token == t) = some inv →
       inv.status = "pending" → inv.email = u.email →
       (∀ e, inv.expires_at = some e → ¬ e < now) →
       (∃ m ∈ db.memberships, m.org_id = inv.org_id ∧ m.user_id = u.id) →
       (accept_invitation t u now db).2 =
         .error ⟨400, "You are already a member of this organization"⟩ ∧
       (accept_invitation t u now db).1.memberships = db.memberships) := by
  refine ⟨?_, ?_, ?_⟩
  · intro name u hfresh
    unfold create_organization
    simp only []
    apply membPairUnique_append hu
    intro m hm hcontra
    have := hfresh m hm
    rw [hcontra.1] at this
    exact absurd this (by simp)
  · intro t u now
    cases hacc : accept_invitation t u now db with
    | mk db' r =>
      cases r with
      | error e =>
        have hsh := accept_error_shape hacc
        simp only [hacc]
        rw [hsh.1]
        exact hu
      | ok m =>
        obtain ⟨inv, hmem, htok, hpend, hemail, hmm, hm, hdb⟩ := accept_ok_shape hacc
        simp only [hacc]
        rw [hdb]
        simp only []
        apply membPairUnique_append hu
        rw [List.find?_eq_none] at hmm
        intro mm hmm2 hcontra
        have := hmm mm hmm2
        rw [hm] at hcontra
        simp only [] at hcontra
        exact this (by simp [hcontra.1, hcontra.2])
  · intro t u now inv hf hpend hemail hnexp hex
    have hexn : (inv.expires_at.map (fun e => decide (e < now))).getD false = false := by
      cases he : inv.expires_at with
      | none => simp
      | some e2 => simp [hnexp e2 he]
    have hmmne : db.memberships.find?
        (fun mm => mm.org_id == inv.org_id && mm.user_id == u.id) ≠ none := by
      apply find?_ne_none_of_exists
      obtain ⟨m, hm, h1, h2⟩ := hex
      exact ⟨m, hm, by simp [h1, h2]⟩
    cases hmm : db.memberships.find?
        (fun mm => mm.org_id == inv.org_id && mm.user_id == u.id) with
    | none => exact absurd hmm hmmne
    | some ex =>
      unfold accept_invitation
      rw [hf]
      simp only []
      rw [if_neg (by simp [hpend]), if_neg (by simp [hemail]), hexn]
      rw [if_neg (by simp)]
      rw [hmm]
      simp only []
      exact ⟨trivial, trivial⟩

/-- C5 (amended): for an acting user whose membership role in the
organization is admin, createInvitation with proposedRole owner always
fails with the 403 only-owner-can-invite-as-owner error and leaves the
store unchanged, regardless of the target email; updateRole with
newRole owner fails with the 403 only-owner-can-assign-owner error and
leaves the store unchanged whenever the target user holds a membership
in the organization, but when the target user has no membership the
call fails with the 404 Member-not-found error (the target lookup
precedes the escalation guard) — still leaving the store unchanged —
rather than with a 403 as the original claim states. -/
theorem role_escalation_guard (org_id : Nat) (u : User) (db : DB)
    (am : Membership)
    (hrr : require_role ["owner", "admin"] org_id u db = .ok (u, am))
    (hadmin : am.role = "admin")
    (horg : ∃ o ∈ db.orgs, o.id = org_id) :
    (∀ email now token logFails emailFails,
       create_invitation_request org_id email "owner" u now token logFails emailFails db =
         (db, .error ⟨403, "Only organization owner can invite as owner"⟩)) ∧
    (∀ user_id, (∃ m ∈ db.memberships, m.org_id = org_id ∧ m.user_id = user_id) →
       update_member_role_request org_id user_id "owner" u db =
         (db, .error ⟨403, "Only organization owner can assign owner role"⟩)) ∧
    (∀ user_id, (¬ ∃ m ∈ db.memberships, m.org_id = org_id ∧ m.user_id = user_id) →
       update_member_role_request org_id user_id "owner" u db =
         (db, .error ⟨404, "Member not found"⟩)) := by
  have hesc : ("owner" == "owner" && am.role != "owner") = true := by
    simp [hadmin]
  refine ⟨?_, ?_, ?_⟩
  · intro email now token logFails emailFails
    have hcore : create_invitation org_id email "owner" am now token db =
        (db, .error ⟨403, "Only organization owner can invite as owner"⟩) := by
      obtain ⟨o, ho, hoid⟩ := horg
      cases hfo : db.orgs.find? (fun o => o.id == org_id) with
      | none =>
        rw [List.find?_eq_none] at hfo
        exact absurd (by simp [hoid] : (fun o => o.id == org_id) o = true) (hfo o ho)
      | some o' =>
        unfold create_invitation
        rw [hfo]
        simp only []
        rw [if_neg (by decide)]
        rw [if_pos hesc]
    unfold create_invitation_request
    rw [hrr]
    simp only []
    rw [hcore]
  · intro user_id hex
    cases hft : db.memberships.find?
        (fun m => m.org_id == org_id && m.user_id == user_id) with
    | none =>
      rw [List.find?_eq_none] at hft
      obtain ⟨m, hm, h1, h2⟩ := hex
      exact absurd (by simp [h1, h2] :
        (fun m => m.org_id == org_id && m.user_id == user_id) m = true) (hft m hm)
    | some tm =>
      unfold update_member_role_request
      rw [hrr]
      simp only []
      unfold update_member_role
      rw [if_neg (by decide)]
      rw [hft]
      simp only []
      rw [if_pos hesc]
  · intro user_id hnex
    have hft : db.memberships.find?
        (fun m => m.org_id == org_id && m.user_id == user_id) = none := by
      rw [List.find?_eq_none]
      intro m hm hc
      simp only [Bool.and_eq_true, beq_iff_eq] at hc
      exact hnex ⟨m, hm, hc.1, hc.2⟩
    unfold update_member_role_request
    rw [hrr]
    simp only []
    unfold update_member_role
    rw [if_neg (by decide)]
    rw [hft]

theorem create_invitation_error_unchanged {org_id : Nat}
    {email role : String} {membership : Membership} {now : Int}
    {token : String} {db db' : DB} {e : HTTPError}
    (h : create_invitation org_id email role membership now token db =
      (db', .error e)) : db' = db := by
  unfold create_invitation at h
  cases hfo : db.orgs.find? (fun o => o.id == org_id) with
  | none =>
    rw [hfo] at h
    simp only [] at h
    injection h with h1 h2
    exact h1.symm
  | some o =>
    rw [hfo] at h
    simp only [] at h
    split at h
    · injection h with h1 h2
      exact h1.symm
    · split at h
      · injection h with h1 h2
        exact h1.symm
      · cases hm : member_with_email org_id email db with
        | some _ =>
          rw [hm] at h
          simp only [] at h
          injection h with h1 h2
          exact h1.symm
        | none =>
          rw [hm] at h
          simp only [] at h
          cases hi : db.invitations.find? (fun i =>
              i.org_id == org_id && i.email == email && i.status == "pending") with
          | some _ =>
            rw [hi] at h
            simp only [] at h
            injection h with h1 h2
            exact h1.symm
          | none =>
            rw [hi] at h
            simp only [] at h
            exact absurd h (by simp)

theorem create_invitation_ok_shape {org_id : Nat} {email role : String}
    {membership : Membership} {now : Int} {token : String} {db db' : DB}
    {inv : Invitation}
    (h : create_invitation org_id email role membership now token db =
      (db', .ok inv)) :
    inv = ⟨db.next_invitation_id, org_id, email, role, token, "pending",
      some (now + 7 * 86400)⟩ ∧
    db' = { db with
      invitations := db.invitations ++ [inv],
      next_invitation_id := db.next_invitation_id + 1 } := by
  unfold create_invitation at h
  cases hfo : db.orgs.find? (fun o => o.id == org_id) with
  | none =>
    rw [hfo] at h
    simp only [] at h
    exact absurd h (by simp)
  | some o =>
    rw [hfo] at h
    simp only [] at h
    split at h
    · exact absurd h (by simp)
    · split at h
      · exact absurd h (by simp)
      · cases hm : member_with_email org_id email db with
        | some _ =>
          rw [hm] at h
          simp only [] at h
          exact absurd h (by simp)
        | none =>
          rw [hm] at h
          simp only [] at h
          cases hi : db.invitations.find? (fun i =>
              i.org_id == org_id && i.email == email && i.status == "pending") with
          | some _ =>
            rw [hi] at h
            simp only [] at h
            exact absurd h (by simp)
          | none =>
            rw [hi] at h
            simp only [] at h
            injection h with h1 h2
            injection h2 with h3
            subst h3
            exact ⟨rfl, h1.symm⟩

/-- C7 (amended): side effects are dispatched only after the primary
transaction commits (a failing primary transaction leaves the store
untouched, dispatching nothing), and a side-effect failure never rolls
back the committed operation; the e-mail dispatch failure is caught
(try/except in the source) and absorbed — verdict and all primary
tables agree with the non-failing run — but, contrary to the original
claim, an activity-log failure is NOT caught: log_activity has no
exception handling, so the failure propagates to the caller as a 500
error for both createInvitation and acceptInvitation, while the
already-committed invitation or membership remains committed. -/
theorem side_effect_dispatch (org_id : Nat) (email role : String)
    (u : User) (now : Int) (token t2 : String) (db : DB) :
    (∀ logFails,
       (create_invitation_request org_id email role u now token logFails true db).2 =
         (create_invitation_request org_id email role u now token logFails false db).2 ∧
       (create_invitation_request org_id email role u now token logFails true db).1.invitations =
         (create_invitation_request org_id email role u now token logFails false db).1.invitations ∧
       (create_invitation_request org_id email role u now token logFails true db).1.memberships =
         (create_invitation_request org_id email role u now token logFails false db).1.memberships ∧
       (create_invitation_request org_id email role u now token logFails true db).1.activity_logs =
         (create_invitation_request org_id email role u now token logFails false db).1.activity_logs) ∧
    (∀ logFails emailFails db' e,
       create_invitation_request org_id email role u now token logFails emailFails db =
         (db', .error e) →
       e.status_code ≠ 500 → db' = db) ∧
    (∀ emailFails db' inv,
       create_invitation_request org_id email role u now token false false db =
         (db', .ok inv) →
       ∃ db2, create_invitation_request org_id email role u now token true emailFails db =
           (db2, .error ⟨500, "Internal Server Error"⟩) ∧
         db2.invitations = db'.invitations ∧ inv ∈ db2.invitations) ∧
    (∀ db' m,
       accept_invitation t2 u now db = (db', .ok m) →
       accept_invitation_request t2 u now true db =
         (db', .error ⟨500, "Internal Server Error"⟩) ∧ m ∈ db'.memberships) := by
  refine ⟨?_, ?_, ?_, ?_⟩
  · intro logFails
    unfold create_invitation_request
    cases hr : require_role ["owner", "admin"] org_id u db with
    | error e =>
      simp only []
      refine ⟨?_, ?_, ?_, ?_⟩ <;> trivial
    | ok p =>
      obtain ⟨u', mem⟩ := p
      simp only []
      cases hc : create_invitation org_id email role mem now token db with
      | mk db1 r =>
        cases r with
        | error e =>
          simp only []
          refine ⟨?_, ?_, ?_, ?_⟩ <;> trivial
        | ok inv =>
          simp only []
          unfold log_activity send_invitation_email
          cases logFails <;> simp
  · intro logFails emailFails db' e h hne
    unfold create_invitation_request at h
    cases hr : require_role ["owner", "admin"] org_id u db with
    | error e0 =>
      rw [hr] at h
      simp only [] at h
      injection h with h1 h2
      exact h1.symm
    | ok p =>
      obtain ⟨u', mem⟩ := p
      rw [hr] at h
      simp only [] at h
      cases hc : create_invitation org_id email role mem now token db with
      | mk db1 r =>
        rw [hc] at h
        cases r with
        | error e0 =>
          simp only [] at h
          injection h with h1 h2
          rw [← h1]
          exact create_invitation_error_unchanged hc
        | ok inv =>
          simp only [] at h
          unfold log_activity send_invitation_email at h
          cases logFails with
          | true =>
            rw [if_pos rfl] at h
            simp only [] at h
            injection h with h1 h2
            injection h2 with h3
            rw [← h3] at hne
            simp at hne
          | false =>
            cases emailFails <;> simp_all
  · intro emailFails db' inv h
    unfold create_invitation_request at h
    cases hr : require_role ["owner", "admin"] org_id u db with
    | error e0 =>
      rw [hr] at h
      simp only [] at h
      exact absurd h (by simp)
    | ok p =>
      obtain ⟨u', mem⟩ := p
      have hu' : u' = u := (require_role_ok_facts hr).1
      subst hu'
      rw [hr] at h
      simp only [] at h
      cases hc : create_invitation org_id email role mem now token db with
      | mk db1 r =>
        rw [hc] at h
        cases r with
        | error e0 =>
          simp only [] at h
          exact absurd h (by simp)
        | ok inv0 =>
          simp only [] at h
          unfold log_activity send_invitation_email at h
          rw [if_neg (by simp : ¬ (false = true))] at h
          simp only [] at h
          injection h with h1 h2
          injection h2 with h3
          refine ⟨db1, ?_, ?_, ?_⟩
          · unfold create_invitation_request
            rw [hr]
            simp only []
            rw [hc]
            simp only []
            unfold log_activity
            rfl
          · rw [← h1]
          · rw [← h3]
            rw [(create_invitation_ok_shape hc).2]
            simp only []
            exact List.mem_append.mpr (.inr (List.mem_singleton.mpr rfl))
  · intro db' m h
    constructor
    · unfold accept_invitation_request
      rw [h]
      simp only []
      unfold log_activity
      rfl
    · obtain ⟨inv, _, _, _, _, _, hm, hdb⟩ := accept_ok_shape h
      rw [hdb]
      simp only []
      exact List.mem_append.mpr (.inr (List.mem_singleton.mpr rfl))

theorem remove_request_ok_shape {org_id user_id : Nat} {u : User}
    {db db' : DB} {r : Unit}
    (h : remove_member_request org_id user_id u db = (db', .ok r)) :
    ∃ am tm,
      am ∈ db.memberships ∧ am.org_id = org_id ∧ am.user_id = u.id ∧
      tm ∈ db.memberships ∧ tm.org_id = org_id ∧ tm.user_id = user_id ∧
      (tm.role = "owner" → am.role = "owner") ∧
      (tm.user_id = u.id → tm.role = "owner" →
        ∃ oo ∈ db.memberships, oo.org_id = org_id ∧ oo.role = "owner" ∧
          oo.user_id ≠ u.id) ∧
      db' = { db with
        memberships := db.memberships.filter (fun m => m.id != tm.id) } := by
  unfold remove_member_request at h
  cases hr : require_role ["owner", "admin"] org_id u db with
  | error e =>
    rw [hr] at h
    simp only [] at h
    exact absurd h (by simp)
  | ok p =>
    obtain ⟨u', am⟩ := p
    have hu' : u = u' := ((require_role_ok_facts hr).1).symm
    subst hu'
    obtain ⟨-, ham, hamorg, hamuid, -⟩ := require_role_ok_facts hr
    rw [hr] at h
    simp only [] at h
    unfold remove_member at h
    cases hft : db.memberships.find?
        (fun m => m.org_id == org_id && m.user_id == user_id) with
    | none =>
      rw [hft] at h
      simp only [] at h
      exact absurd h (by simp)
    | some tm =>
      rw [hft] at h
      simp only [] at h
      have htm := List.find?_some hft
      have htmm := List.mem_of_find?_eq_some hft
      simp only [Bool.and_eq_true, beq_iff_eq] at htm
      by_cases h1 : (tm.role == "owner" && am.role != "owner") = true
      · rw [if_pos h1] at h
        exact absurd h (by simp)
      · rw [if_neg h1] at h
        by_cases h2 : (tm.user_id == u.id && tm.role == "owner" &&
            (db.memberships.find? (fun m => m.org_id == org_id &&
              m.role == "owner" && m.user_id != u.id)).isNone) = true
        · rw [if_pos h2] at h
          exact absurd h (by simp)
        · rw [if_neg h2] at h
          injection h with hdb hr2
          refine ⟨am, tm, ham, hamorg, hamuid, htmm, htm.1, htm.2, ?_, ?_, hdb.symm⟩
          · intro htro
            by_contra hamro
            exact h1 (by simp [htro, hamro])
          · intro hself htro
            cases hoo : db.memberships.find? (fun m => m.org_id == org_id &&
                m.role == "owner" && m.user_id != u.id) with
            | none => exact absurd (by simp [hself, htro, hoo]) h2
            | some oo =>
              have hop := List.find?_some hoo
              have hom := List.mem_of_find?_eq_some hoo
              simp only [Bool.and_eq_true, beq_iff_eq, bne_iff_ne, ne_eq] at hop
              exact ⟨oo, hom, hop.1.1, hop.1.2, hop.2⟩

theorem update_request_ok_shape {org_id user_id : Nat} {role : String}
    {u : User} {db db' : DB} {mret : Membership}
    (h : update_member_role_request org_id user_id role u db = (db', .ok mret)) :
    ∃ am tm,
      am ∈ db.memberships ∧ am.org_id = org_id ∧ am.user_id = u.id ∧
      tm ∈ db.memberships ∧ tm.org_id = org_id ∧ tm.user_id = user_id ∧
      (role = "owner" → am.role = "owner") ∧
      (tm.user_id = u.id → tm.role = "owner" →
        ∃ oo ∈ db.memberships, oo.org_id = org_id ∧ oo.role = "owner" ∧
          oo.user_id ≠ u.id) ∧
      db' = { db with
        memberships := set_mem_role db.memberships tm.id role } := by
  unfold update_member_role_request at h
  cases hr : require_role ["owner", "admin"] org_id u db with
  | error e =>
    rw [hr] at h
    simp only [] at h
    exact absurd h (by simp)
  | ok p =>
    obtain ⟨u', am⟩ := p
    have hu' : u = u' := ((require_role_ok_facts hr).1).symm
    subst hu'
    obtain ⟨-, ham, hamorg, hamuid, -⟩ := require_role_ok_facts hr
    rw [hr] at h
    simp only [] at h
    unfold update_member_role at h
    by_cases h0 : (!(["owner", "admin", "member"].contains role)) = true
    · rw [if_pos h0] at h
      exact absurd h (by simp)
    · rw [if_neg h0] at h
      cases hft : db.memberships.find?
          (fun m => m.org_id == org_id && m.user_id == user_id) with
      | none =>
        rw [hft] at h
        simp only [] at h
        exact absurd h (by simp)
      | some tm =>
        rw [hft] at h
        simp only [] at h
        have htm := List.find?_some hft
        have htmm := List.mem_of_find?_eq_some hft
        simp only [Bool.and_eq_true, beq_iff_eq] at htm
        by_cases h1 : (role == "owner" && am.role != "owner") = true
        · rw [if_pos h1] at h
          exact absurd h (by simp)
        · rw [if_neg h1] at h
          by_cases h2 : (tm.user_id == u.id && tm.role == "owner" &&
              (db.memberships.find? (fun m => m.org_id == org_id &&
                m.role == "owner" && m.user_id != u.id)).isNone) = true
          · rw [if_pos h2] at h
            exact absurd h (by simp)
          · rw [if_neg h2] at h
            injection h with hdb hr2
            refine ⟨am, tm, ham, hamorg, hamuid, htmm, htm.1, htm.2, ?_, ?_, hdb.symm⟩
            · intro hro
              by_contra hamro
              exact h1 (by simp [hro, hamro])
            · intro hself htro
              cases hoo : db.memberships.find? (fun m => m.org_id == org_id &&
                  m.role == "owner" && m.user_id != u.id) with
              | none => exact absurd (by simp [hself, htro, hoo]) h2
              | some oo =>
                have hop := List.find?_some hoo
                have hom := List.mem_of_find?_eq_some hoo
                simp only [Bool.and_eq_true, beq_iff_eq, bne_iff_ne, ne_eq] at hop
                exact ⟨oo, hom, hop.1.1, hop.1.2, hop.2⟩

/-- C1 (amended): removeMember preserves the sole-owner invariant: a
successful removal never leaves an organization with memberships but no
owner-role membership; updateRole preserves it whenever the target user
is the acting user (the only case the source guards).  However — contrary
to the original claim — a successful updateRole whose target is a
DIFFERENT user can leave an organization with memberships and zero
owners: the guard at organization.py line 385 fires only on
self-demotion, so an admin demoting the sole owner succeeds (see the
counterexample). -/
theorem sole_owner_preservation (db : DB) (org_id user_id : Nat) (u : User)
    (hid : idUniqueMem db.memberships) (hinv : ownerInv db.memberships) :
    (∀ db' r, remove_member_request org_id user_id u db = (db', .ok r) →
       ownerInv db'.memberships) ∧
    (∀ role db' m', user_id = u.id →
       update_member_role_request org_id user_id role u db = (db', .ok m') →
       ownerInv db'.memberships) := by
  constructor
  · intro db' r h
    obtain ⟨am, tm, ham, hamorg, hamuid, htmm, htmorg, htmuid, hprot, hsole, hdb⟩ :=
      remove_request_ok_shape h
    subst hdb
    unfold ownerInv
    intro m hm
    simp only [] at hm ⊢
    have hmf := List.mem_filter.mp hm
    have hm' := hmf.1
    obtain ⟨ow, how, howorg, howrole⟩ := hinv m hm'
    by_cases howtm : ow.id = tm.id
    · have howeq : ow = tm := hid ow how tm htmm howtm
      rw [howeq] at howorg howrole
      by_cases hself : tm.user_id = u.id
      · obtain ⟨oo, hoom, hooorg, hoorole, hoouid⟩ := hsole hself howrole
        have hooid : ¬ (oo.id = tm.id) := by
          intro hcon
          have hoe : oo = tm := hid oo hoom tm htmm hcon
          rw [hoe] at hoouid
          exact hoouid hself
        refine ⟨oo, List.mem_filter.mpr ⟨hoom, by simp [hooid]⟩, ?_, hoorole⟩
        rw [hooorg, ← htmorg]
        exact howorg
      · have hamro : am.role = "owner" := hprot howrole
        have hamid : ¬ (am.id = tm.id) := by
          intro hcon
          have hae : am = tm := hid am ham tm htmm hcon
          rw [hae] at hamuid
          exact hself hamuid
        refine ⟨am, List.mem_filter.mpr ⟨ham, by simp [hamid]⟩, ?_, hamro⟩
        rw [hamorg, ← htmorg]
        exact howorg
    · exact ⟨ow, List.mem_filter.mpr ⟨how, by simp [howtm]⟩, howorg, howrole⟩
  · intro role db' m' huid h
    obtain ⟨am, tm, ham, hamorg, hamuid, htmm, htmorg, htmuid, hprot, hsole, hdb⟩ :=
      update_request_ok_shape h
    subst hdb
    unfold ownerInv
    intro m hm
    simp only [] at hm ⊢
    unfold set_mem_role at hm ⊢
    obtain ⟨m0, hm0, hfm0⟩ := List.mem_map.mp hm
    have horg0 : m.org_id = m0.org_id := by
      rw [← hfm0]
      by_cases hc : (m0.id == tm.id) = true <;> simp [hc]
    have htmusr : tm.user_id = u.id := by rw [htmuid, huid]
    obtain ⟨ow, how, howorg, howrole⟩ := hinv m0 hm0
    by_cases howtm : ow.id = tm.id
    · have howeq : ow = tm := hid ow how tm htmm howtm
      rw [howeq] at howorg howrole
      obtain ⟨oo, hoom, hooorg, hoorole, hoouid⟩ := hsole htmusr howrole
      have hooid : ¬ (oo.id = tm.id) := by
        intro hcon
        have hoe : oo = tm := hid oo hoom tm htmm hcon
        rw [hoe] at hoouid
        exact hoouid htmusr
      refine ⟨oo, ?_, ?_, hoorole⟩
      · exact List.mem_map.mpr ⟨oo, hoom, by simp [hooid]⟩
      · rw [horg0, hooorg, ← htmorg]
        exact howorg
    · refine ⟨ow, ?_, ?_, howrole⟩
      · exact List.mem_map.mpr ⟨ow, how, by simp [howtm]⟩
      · rw [horg0]
        exact howorg

/-! ## Witnesses -/

theorem sole_owner_preservation_witness :
    ownerInv (remove_member_request 10 200 userA exDb).1.memberships :=
  (sole_owner_preservation exDb 10 200 userA (by decide) (by decide)).1
    (remove_member_request 10 200 userA exDb).1 () (by decide)

theorem accept_invitation_atomicity_witness :
    (∃ inv ∈ exDbPending.invitations,
      inv.token = "tok5" ∧ inv.status = "pending" ∧ inv.email = userC.email ∧
      (⟨3, 10, 300, "member"⟩ : Membership) =
        ⟨exDbPending.next_membership_id, inv.org_id, userC.id, inv.role⟩ ∧
      (accept_invitation "tok5" userC 100 exDbPending).1.memberships =
        exDbPending.memberships ++ [⟨3, 10, 300, "member"⟩] ∧
      (accept_invitation "tok5" userC 100 exDbPending).1.invitations =
        set_inv_status exDbPending.invitations inv.id "accepted" ∧
      (accept_invitation "tok5" userC 100 exDbPending).1.orgs =
        exDbPending.orgs ∧
      (accept_invitation "tok5" userC 100 exDbPending).1.users =
        exDbPending.users) ∧
    ((accept_invitation "tok1" userC 100 exDbExpired).1.memberships =
        exDbExpired.memberships ∧
      (accept_invitation "tok1" userC 100 exDbExpired).1.orgs =
        exDbExpired.orgs ∧
      (accept_invitation "tok1" userC 100 exDbExpired).1.users =
        exDbExpired.users ∧
      ((accept_invitation "tok1" userC 100 exDbExpired).1.invitations =
          exDbExpired.invitations ∨
       ∃ inv ∈ exDbExpired.invitations, inv.token = "tok1" ∧
         inv.status = "pending" ∧
         ((accept_invitation "tok1" userC 100 exDbExpired).1.invitations =
            set_inv_status exDbExpired.invitations inv.id "expired" ∨
          (accept_invitation "tok1" userC 100 exDbExpired).1.invitations =
            set_inv_status exDbExpired.invitations inv.id "accepted"))) :=
  ⟨(accept_invitation_atomicity "tok5" userC 100 exDbPending).1
      (accept_invitation "tok5" userC 100 exDbPending).1
      ⟨3, 10, 300, "member"⟩ (by decide),
   (accept_invitation_atomicity "tok1" userC 100 exDbExpired).2
      (accept_invitation "tok1" userC 100 exDbExpired).1
      ⟨400, "Invitation has expired"⟩ (by decide)⟩

theorem duplicate_invitation_check_witness :
    (create_invitation 10 "c@x.com" "member" ⟨1, 10, 100, "owner"⟩ 100 "tok9"
        exDbExpired).2 =
        .error ⟨400, "Invitation already sent to this email"⟩ ↔
      ∃ i ∈ exDbExpired.invitations, i.org_id = 10 ∧ i.email = "c@x.com" ∧
        i.status = "pending" :=
  duplicate_invitation_check 10 "c@x.com" "member" ⟨1, 10, 100, "owner"⟩ 100
    "tok9" exDbExpired (by decide) (by decide) (by decide) (by decide)

theorem invitation_expiry_correctness_witness :
    (accept_invitation "tok1" userC 100 exDbExpired).2 =
      .error ⟨400, "Invitation has expired"⟩ ∧
    (accept_invitation "tok1" userC 100
        (accept_invitation "tok1" userC 100 exDbExpired).1).2 =
      .error ⟨400, "Invitation already expired"⟩ :=
  ⟨(invitation_expiry_correctness exDbExpired userC 100 "tok1"
      ⟨5, 10, "c@x.com", "member", "tok1", "pending", some 50⟩ 50
      (by decide) rfl rfl rfl (by decide)).1,
   (invitation_expiry_correctness exDbExpired userC 100 "tok1"
      ⟨5, 10, "c@x.com", "member", "tok1", "pending", some 50⟩ 50
      (by decide) rfl rfl rfl (by decide)).2.2.2.1⟩

theorem role_escalation_guard_witness :
    create_invitation_request 10 "q@x.com" "owner" userB 100 "tokq" false false
        exDb =
      (exDb, .error ⟨403, "Only organization owner can invite as owner"⟩) :=
  (role_escalation_guard 10 userB exDb ⟨2, 10, 200, "admin"⟩ (by decide) rfl
    (by decide)).1 "q@x.com" 100 "tokq" false false

theorem membership_uniqueness_witness :
    membPairUnique (accept_invitation "tok5" userC 100 exDbPending).1.memberships :=
  (membership_uniqueness exDbPending (by decide)).2.1 "tok5" userC 100

theorem side_effect_dispatch_witness :
    accept_invitation_request "tok5" userC 100 true exDbPending =
      ((accept_invitation "tok5" userC 100 exDbPending).1,
        .error ⟨500, "Internal Server Error"⟩) ∧
    (⟨3, 10, 300, "member"⟩ : Membership) ∈
      (accept_invitation "tok5" userC 100 exDbPending).1.memberships :=
  (side_effect_dispatch 10 "z@x.com" "member" userC 100 "tokz" "tok5"
      exDbPending).2.2.2
    (accept_invitation "tok5" userC 100 exDbPending).1
    ⟨3, 10, 300, "member"⟩ (by decide)

theorem require_role_contract_witness :
    require_role ["owner", "admin"] 10 userA exDb =
      .ok (userA, ⟨1, 10, 100, "owner"⟩) :=
  ((require_role_contract ["owner", "admin"] 10 userA exDb (by decide)).2
    ⟨1, 10, 100, "owner"⟩ (by decide) (by decide) (by decide)).2 (by decide)

theorem create_invitation_org_not_found_unreachable_witness :
    (create_invitation_request 10 "z@x.com" "member" userA 100 "tokw" false
        false exDb).2 ≠
      .error ⟨404, "Organization not found"⟩ :=
  create_invitation_org_not_found_unreachable exDb (by decide) 10 "z@x.com"
    "member" userA 100 "tokw" false false

end SaaS
